import Mathlib

/-!
Shallow embedding of the file-backed key-value store (package `store`,
file `filestore.go`): the data model (`fileEntry`, `fileData`), the JSON
serialization produced by `json.Marshal` / consumed by `json.Unmarshal`
for these types, and the store operations `Set`, `Get`, `Delete` and
`newFileDataFromFile`.

Modelling conventions:
- `time.Time` instants and `time.Duration` values are integers (an
  abstract linear clock); `time.Now()` is an explicit `now` argument to
  each operation, and `t1.After(t2)` is `t1 > t2`.
- The `uint64` field `Seq` is a `Nat`; the Go increment `Seq++` wraps,
  so it is modelled as `(seq + 1) % 2 ^ 64`.
- A Go `map[string]V` is an association list `List (String × V)` whose
  keys are unique; map assignment, deletion and indexing are `setPair`,
  `erasePair` and `alookup`.
- JSON documents are the inductive `JVal`.  `JVal.time t` stands for
  the RFC3339 string `json.Marshal` produces for the `time.Time`
  instant `t` (that rendering is injective, so it is kept abstract).
  `json.Marshal` emits the keys of a Go map in sorted order; `sortPairs`
  models that reordering (its comparator is `String` order; the proofs
  below only use that it permutes the list).
- File I/O is explicit state: the disk content is an `Option JContent`
  (`none` = no file), where `JContent.malformed` stands for bytes that
  do not parse as JSON at all and `JContent.wellformed j` for bytes
  parsing to the document `j`.  Whether a `WriteFile` call succeeds is
  a `writeOk : Bool` parameter; the OS error text interpolated into the
  Go error messages is abstracted away.
-/

namespace Lumen

/-- JSON values, specialized to the shapes this file produces and
consumes.  `time t` is the JSON string encoding of the instant `t`. -/
inductive JVal where
  | str : String → JVal
  | boolean : Bool → JVal
  | num : Int → JVal
  | time : Int → JVal
  | obj : List (String × JVal) → JVal

/-- Content of a backing file: either bytes that fail to parse as JSON,
or a parsed JSON document. -/
inductive JContent where
  | malformed : JContent
  | wellformed : JVal → JContent

/-- Association-list lookup: Go map indexing `m[k]`. -/
def alookup {α : Type} (k : String) : List (String × α) → Option α
  | [] => none
  | p :: rest => if k = p.1 then some p.2 else alookup k rest

/-- Association-list insert-or-replace: Go map assignment `m[k] = v`. -/
def setPair {α : Type} (k : String) (v : α) : List (String × α) → List (String × α)
  | [] => [(k, v)]
  | p :: rest => if k = p.1 then (k, v) :: rest else p :: setPair k v rest

/-- Association-list removal: Go `delete(m, k)`. -/
def erasePair {α : Type} (k : String) : List (String × α) → List (String × α)
  | [] => []
  | p :: rest => if k = p.1 then rest else p :: erasePair k rest

/-- Insert one pair into a key-sorted list, keeping it sorted. -/
def insertPairSorted {α : Type} (p : String × α) : List (String × α) → List (String × α)
  | [] => [p]
  | q :: rest => if p.1 < q.1 then p :: q :: rest else q :: insertPairSorted p rest

/-- Sort an association list by key: the key ordering `json.Marshal`
applies to Go map entries before emitting them. -/
def sortPairs {α : Type} : List (String × α) → List (String × α)
  | [] => []
  | p :: rest => insertPairSorted p (sortPairs rest)

/-- The keys of an association list are pairwise distinct (a Go map
has unique keys by construction). -/
def keysNodup {α : Type} (l : List (String × α)) : Prop :=
  (l.map Prod.fst).Nodup

/-- Go struct `fileEntry`: one stored value plus expiration metadata.
The JSON tags are `value`, `bool` and `expires_on`. -/
structure fileEntry where
  value : String
  noExpire : Bool
  expiresOn : Int
deriving DecidableEq, Repr

/-- Go method `fileEntry.expired`:
`!e.NoExpire && time.Now().After(e.ExpiresOn)`. -/
def fileEntry.expired (e : fileEntry) (now : Int) : Bool :=
  !e.noExpire && now > e.expiresOn

/-- Go struct `fileData`: the dataset serialized to the backing file.
The JSON tags are `version`, `seq` and `pairs`; `Seq` is a `uint64`. -/
structure fileData where
  version : String
  seq : Nat
  pairs : List (String × fileEntry)
deriving DecidableEq, Repr

/-- Go `newFileData()`: the fresh empty dataset. -/
def newFileData : fileData :=
  { version := "1", seq := 0, pairs := [] }

/-- `json.Marshal` of a `fileEntry` (field order as declared in the
struct; tags `value`, `bool`, `expires_on`). -/
def fileEntry.toJson (e : fileEntry) : JVal :=
  .obj [("value", .str e.value), ("bool", .boolean e.noExpire),
        ("expires_on", .time e.expiresOn)]

/-- `json.Marshal` of a `fileData`: top-level fields `version`, `seq`,
`pairs`; the map entries are emitted in sorted key order. -/
def fileData.toJson (d : fileData) : JVal :=
  .obj [("version", .str d.version), ("seq", .num d.seq),
        ("pairs", .obj ((sortPairs d.pairs).map fun p => (p.1, p.2.toJson)))]

/-- `json.Unmarshal` of one object field into a `string` destination
holding `dflt`: an absent field leaves the destination unchanged, a
present field must be a JSON string. -/
def decodeStrField (fields : List (String × JVal)) (name : String) (dflt : String) :
    Option String :=
  match alookup name fields with
  | none => some dflt
  | some (.str s) => some s
  | some _ => none

/-- `json.Unmarshal` of one object field into a `bool` destination. -/
def decodeBoolField (fields : List (String × JVal)) (name : String) (dflt : Bool) :
    Option Bool :=
  match alookup name fields with
  | none => some dflt
  | some (.boolean b) => some b
  | some _ => none

/-- `json.Unmarshal` of one object field into a `uint64` destination:
the number must be an integer in `[0, 2^64)`. -/
def decodeU64Field (fields : List (String × JVal)) (name : String) (dflt : Nat) :
    Option Nat :=
  match alookup name fields with
  | none => some dflt
  | some (.num n) => if 0 ≤ n ∧ n < 2 ^ 64 then some n.toNat else none
  | some _ => none

/-- `json.Unmarshal` of one object field into a `time.Time`
destination: the field must be an RFC3339 time string. -/
def decodeTimeField (fields : List (String × JVal)) (name : String) (dflt : Int) :
    Option Int :=
  match alookup name fields with
  | none => some dflt
  | some (.time t) => some t
  | some _ => none

/-- `json.Unmarshal` of a JSON value into a zero-valued `fileEntry`
(map values start from the zero value: empty string, `false`, zero
time). -/
def decodeEntry (j : JVal) : Option fileEntry :=
  match j with
  | .obj fields =>
    match decodeStrField fields "value" "",
          decodeBoolField fields "bool" false,
          decodeTimeField fields "expires_on" 0 with
    | some v, some ne, some eo => some { value := v, noExpire := ne, expiresOn := eo }
    | _, _, _ => none
  | _ => none

/-- `json.Unmarshal` of a JSON object into `map[string]fileEntry`:
each field value must decode as a `fileEntry`. -/
def decodePairs : List (String × JVal) → Option (List (String × fileEntry))
  | [] => some []
  | (k, j) :: rest =>
    match decodeEntry j, decodePairs rest with
    | some e, some ps => some ((k, e) :: ps)
    | _, _ => none

/-- `json.Unmarshal` of the `pairs` object field into the
`map[string]fileEntry` destination holding `dflt` (the field must be a
JSON object when present; absent leaves the map untouched). -/
def decodePairsField (fields : List (String × JVal))
    (dflt : List (String × fileEntry)) : Option (List (String × fileEntry)) :=
  match alookup "pairs" fields with
  | none => some dflt
  | some (.obj pfields) => decodePairs pfields
  | some _ => none

/-- `json.Unmarshal` of a JSON document into a pre-initialized
`fileData` value `init` (fields absent from the document keep the
values `init` holds, as Go leaves the destination untouched). -/
def decodeFileData (init : fileData) (j : JVal) : Option fileData :=
  match j with
  | .obj fields =>
    (decodeStrField fields "version" init.version).bind fun v =>
      (decodeU64Field fields "seq" init.seq).bind fun s =>
        (decodePairsField fields init.pairs).map fun ps =>
          { version := v, seq := s, pairs := ps }
  | _ => none

/-- `json.Unmarshal` of raw file content into a pre-initialized
`fileData`: bytes that are not JSON at all fail, otherwise the
document is decoded. -/
def unmarshalFileData (init : fileData) (c : JContent) : Option fileData :=
  match c with
  | .malformed => none
  | .wellformed j => decodeFileData init j

/-- Go `fileData.sync`: marshal the dataset and overwrite the backing
file (mode 0600).  `writeOk` says whether the `WriteFile` call
succeeds; on failure the error surfaces and the disk is unchanged.
Returns `(error, new disk content)`. -/
def fileData.sync (d : fileData) (writeOk : Bool) (disk : Option JContent) :
    Option String × Option JContent :=
  if writeOk then (none, some (.wellformed d.toJson))
  else (some "could not write to file", disk)

/-- Go `newFileDataFromFile`: load the dataset from the file, creating
a fresh empty one (and syncing it) if the file cannot be read.
`readResult` is `none` when `ReadFile` fails (absent or unreadable
file) and `some c` when it returns content `c`.  Returns the
load-or-create outcome and the new disk content. -/
def newFileDataFromFile (readResult : Option JContent) (writeOk : Bool)
    (disk : Option JContent) : Except String fileData × Option JContent :=
  match readResult with
  | none =>
    match fileData.sync newFileData writeOk disk with
    | (none, disk2) => (.ok newFileData, disk2)
    | (some e, disk2) => (.error e, disk2)
  | some c =>
    match unmarshalFileData newFileData c with
    | none => (.error "invalid content", disk)
    | some d => (.ok d, disk)

/-- The mutable state of one `FileStore`: the in-memory dataset behind
`fs.data` and the content of the backing file at `fs.path`.  The
reader/writer lock `fs.mu` serializes the operations, so each
operation is one atomic step on this state. -/
structure StoreState where
  data : fileData
  file : Option JContent

/-- Go `FileStore.Set`: insert or replace the entry for `k`
(`NoExpire := ttl == 0`, `ExpiresOn := time.Now().Add(ttl)`), bump the
`uint64` sequence counter, then sync.  Returns `(error, new state)`. -/
def FileStore.Set (s : StoreState) (now : Int) (k v : String) (ttl : Int)
    (writeOk : Bool) : Option String × StoreState :=
  let data2 : fileData :=
    { s.data with
      pairs := setPair k { value := v, noExpire := ttl == 0, expiresOn := now + ttl }
        s.data.pairs,
      seq := (s.data.seq + 1) % 2 ^ 64 }
  let r := fileData.sync data2 writeOk s.file
  (r.1, { data := data2, file := r.2 })

/-- Go `FileStore.Get`: look up `k`; a missing or expired entry yields
the error `not found: k`, otherwise the stored value is returned.  The
state is returned unchanged (the shared lock path never mutates).
Returns `(result, state after the call)`. -/
def FileStore.Get (s : StoreState) (now : Int) (k : String) :
    Except String String × StoreState :=
  match alookup k s.data.pairs with
  | none => (.error ("not found: " ++ k), s)
  | some val =>
    if val.expired now then (.error ("not found: " ++ k), s)
    else (.ok val.value, s)

/-- Go `FileStore.Delete`: remove the entry for `k` (a no-op when `k`
is absent), then sync.  Returns `(error, new state)`. -/
def FileStore.Delete (s : StoreState) (k : String) (writeOk : Bool) :
    Option String × StoreState :=
  let data2 : fileData := { s.data with pairs := erasePair k s.data.pairs }
  let r := fileData.sync data2 writeOk s.file
  (r.1, { data := data2, file := r.2 })

/-! Helper lemmas about the association-list model. -/

/-- Inserting into a sorted list is a permutation of consing. -/
theorem insertPairSorted_perm {α : Type} (p : String × α) (l : List (String × α)) :
    (insertPairSorted p l).Perm (p :: l) := by
  induction l with
  | nil => exact .refl _
  | cons q rest ih =>
    by_cases h : p.1 < q.1
    · simp only [insertPairSorted, if_pos h]
      exact .refl _
    · simp only [insertPairSorted, if_neg h]
      exact (ih.cons q).trans (List.Perm.swap p q rest)

/-- Sorting an association list permutes it. -/
theorem sortPairs_perm {α : Type} (l : List (String × α)) : (sortPairs l).Perm l := by
  induction l with
  | nil => exact .refl _
  | cons p rest ih =>
    exact (insertPairSorted_perm p (sortPairs rest)).trans (ih.cons p)

/-- On lists with distinct keys, lookup is invariant under permutation. -/
theorem alookup_eq_of_perm {α : Type} {l₁ l₂ : List (String × α)} (k : String)
    (h : l₁.Perm l₂) : keysNodup l₁ → alookup k l₁ = alookup k l₂ := by
  induction h with
  | nil => intro _; rfl
  | cons p h2 ih =>
    intro hn
    have hn2 : keysNodup _ := (List.nodup_cons.mp hn).2
    by_cases hk : k = p.1
    · simp [alookup, hk]
    · simp [alookup, hk, ih hn2]
  | swap x y l =>
    intro hn
    have hyx : y.1 ≠ x.1 := by
      have := (List.nodup_cons.mp hn).1
      intro hcontra
      exact this (by simp [hcontra])
    by_cases hk1 : k = y.1
    · have hk2 : ¬ k = x.1 := fun hc => hyx (hk1 ▸ hc)
      simp [alookup, hk1, hk2, hyx]
    · by_cases hk2 : k = x.1
      · simp [alookup, hk1, hk2, Ne.symm hyx]
      · simp [alookup, hk1, hk2]
  | trans h₁ h₂ ih₁ ih₂ =>
    intro hn
    have hnmid : keysNodup _ := ((h₁.map Prod.fst).nodup_iff).mp hn
    exact (ih₁ hn).trans (ih₂ hnmid)

/-- Lookup is unchanged by the key-sorting pass of the serializer. -/
theorem alookup_sortPairs {α : Type} (k : String) (l : List (String × α))
    (hn : keysNodup l) : alookup k (sortPairs l) = alookup k l := by
  have h1 := sortPairs_perm l
  have hn2 : keysNodup (sortPairs l) := ((h1.map Prod.fst).nodup_iff).mpr hn
  exact alookup_eq_of_perm k h1 hn2

/-- Lookup after a value-only map. -/
theorem alookup_map_value {α β : Type} (f : α → β) (k : String)
    (l : List (String × α)) :
    alookup k (l.map fun p => (p.1, f p.2)) = (alookup k l).map f := by
  induction l with
  | nil => rfl
  | cons p rest ih =>
    by_cases hk : k = p.1 <;> simp [alookup, hk, ih]

/-- Map assignment makes the assigned key map to the assigned value. -/
theorem alookup_setPair {α : Type} (k : String) (v : α) (l : List (String × α)) :
    alookup k (setPair k v l) = some v := by
  induction l with
  | nil => simp [setPair, alookup]
  | cons p rest ih =>
    by_cases hk : k = p.1 <;> simp [setPair, alookup, hk, ih]

/-- Deleting a key that is not bound leaves the list unchanged. -/
theorem erasePair_of_alookup_none {α : Type} (k : String) (l : List (String × α))
    (h : alookup k l = none) : erasePair k l = l := by
  induction l with
  | nil => rfl
  | cons p rest ih =>
    by_cases hk : k = p.1
    · simp [alookup, hk] at h
    · simp only [alookup, if_neg hk] at h
      simp [erasePair, hk, ih h]

/-! Helper lemmas about the JSON round-trip. -/

/-- Decoding an encoded entry recovers it exactly. -/
theorem decodeEntry_toJson (e : fileEntry) : decodeEntry e.toJson = some e := rfl

/-- Decoding an encoded pair list recovers it exactly. -/
theorem decodePairs_map_toJson (l : List (String × fileEntry)) :
    decodePairs (l.map fun p => (p.1, p.2.toJson)) = some l := by
  induction l with
  | nil => rfl
  | cons p rest ih =>
    obtain ⟨k, e⟩ := p
    simp [decodePairs, decodeEntry_toJson, ih]

/-- Decoding an encoded dataset recovers it up to the serializer's key
reordering, for any in-range sequence number. -/
theorem decodeFileData_toJson (init : fileData) (d : fileData) (h : d.seq < 2 ^ 64) :
    decodeFileData init d.toJson =
      some { version := d.version, seq := d.seq, pairs := sortPairs d.pairs } := by
  have hseq : (0 : Int) ≤ (d.seq : Int) ∧ (d.seq : Int) < 2 ^ 64 := by
    constructor
    · exact Int.ofNat_nonneg _
    · exact_mod_cast h
  have h2 : d.seq < 18446744073709551616 := h
  have hver : decodeStrField
      [("version", .str d.version), ("seq", .num d.seq),
       ("pairs", .obj ((sortPairs d.pairs).map fun p => (p.1, p.2.toJson)))]
      "version" init.version = some d.version := rfl
  have hs : decodeU64Field
      [("version", .str d.version), ("seq", .num d.seq),
       ("pairs", .obj ((sortPairs d.pairs).map fun p => (p.1, p.2.toJson)))]
      "seq" init.seq = some d.seq := by
    simp [decodeU64Field, alookup, hseq, h2]
  have hp : decodePairsField
      [("version", JVal.str d.version), ("seq", JVal.num d.seq),
       ("pairs", JVal.obj ((sortPairs d.pairs).map fun p => (p.1, p.2.toJson)))]
      init.pairs = some (sortPairs d.pairs) := by
    simp [decodePairsField, alookup, decodePairs_map_toJson]
  simp only [fileData.toJson, decodeFileData, hver, hs, hp]
  rfl

/-! Helper lemmas about the store operations. -/

/-- The in-memory dataset after a `Set`: the entry written, the bumped
`uint64` counter, the untouched version tag. -/
theorem Set_data (s : StoreState) (now : Int) (k v : String) (ttl : Int)
    (writeOk : Bool) :
    (FileStore.Set s now k v ttl writeOk).2.data =
      { version := s.data.version,
        seq := (s.data.seq + 1) % 2 ^ 64,
        pairs := setPair k { value := v, noExpire := ttl == 0, expiresOn := now + ttl }
          s.data.pairs } := rfl

/-- `Get` leaves the store state exactly as it was. -/
theorem Get_snd (s : StoreState) (now : Int) (k : String) :
    (FileStore.Get s now k).2 = s := by
  unfold FileStore.Get
  split
  · rfl
  · split <;> rfl

/-- The result of `Get` on a bound key, as a function of the entry's
expiration check. -/
theorem Get_of_lookup (s : StoreState) (now : Int) (k : String) (e : fileEntry)
    (he : alookup k s.data.pairs = some e) :
    (FileStore.Get s now k).1 =
      if e.expired now then .error ("not found: " ++ k) else .ok e.value := by
  unfold FileStore.Get
  rw [he]
  by_cases hx : e.expired now <;> simp [hx]

/-- The result of `Get` on an unbound key. -/
theorem Get_of_lookup_none (s : StoreState) (now : Int) (k : String)
    (he : alookup k s.data.pairs = none) :
    (FileStore.Get s now k).1 = .error ("not found: " ++ k) := by
  unfold FileStore.Get
  rw [he]

/-! Sample data used by the witness theorems. -/

/-- A concrete entry with a finite expiration (expires at instant 5). -/
def sampleExpired : fileEntry :=
  { value := "x", noExpire := false, expiresOn := 5 }

/-- A concrete store state holding the single key `a`. -/
def sampleState : StoreState :=
  { data := { version := "1", seq := 0, pairs := [("a", sampleExpired)] },
    file := none }

/-! Claim theorems. -/

/-- C1: `Get` returns the stored value when the key is present and not
expired; otherwise it fails with the `not found: k` error, and that
error value is identical whether the key was never set or its entry
has expired, so the two cases are indistinguishable from the error. -/
theorem get_notfound_uniform (s : StoreState) (now : Int) (k : String) :
    (∀ e, alookup k s.data.pairs = some e → e.expired now = false →
      (FileStore.Get s now k).1 = .ok e.value) ∧
    (alookup k s.data.pairs = none →
      (FileStore.Get s now k).1 = .error ("not found: " ++ k)) ∧
    (∀ e, alookup k s.data.pairs = some e → e.expired now = true →
      (FileStore.Get s now k).1 = .error ("not found: " ++ k)) := by
  refine ⟨fun e he hx => ?_, fun he => Get_of_lookup_none s now k he,
    fun e he hx => ?_⟩
  · rw [Get_of_lookup s now k e he, if_neg (by simp [hx])]
  · rw [Get_of_lookup s now k e he, if_pos hx]

/-- Witness for C1 at a concrete store: a hit before expiry, the
never-set key error, and the expired-key error (the same string). -/
theorem get_notfound_uniform_witness :
    (FileStore.Get sampleState 3 "a").1 = .ok "x" ∧
    (FileStore.Get sampleState 10 "b").1 = .error ("not found: " ++ "b") ∧
    (FileStore.Get sampleState 10 "a").1 = .error ("not found: " ++ "a") :=
  ⟨(get_notfound_uniform sampleState 3 "a").1 sampleExpired rfl (by decide),
   (get_notfound_uniform sampleState 10 "b").2.1 rfl,
   (get_notfound_uniform sampleState 10 "a").2.2 sampleExpired rfl (by decide)⟩

/-- C2: `Set` with `ttl = 0` stores a never-expiring entry that `Get`
returns at every later time; `Set` with `ttl > 0` stores an entry with
`expiresOn = now + ttl` that `Get` returns while `t ≤ expiresOn` and
treats as absent once `t > expiresOn`. -/
theorem set_ttl_contract (s : StoreState) (now : Int) (k v : String) (ttl : Int)
    (writeOk : Bool) :
    (ttl = 0 →
      ∃ e, alookup k (FileStore.Set s now k v ttl writeOk).2.data.pairs = some e ∧
        e.noExpire = true ∧ e.value = v ∧
        ∀ t : Int,
          (FileStore.Get (FileStore.Set s now k v ttl writeOk).2 t k).1 = .ok v) ∧
    (0 < ttl →
      ∃ e, alookup k (FileStore.Set s now k v ttl writeOk).2.data.pairs = some e ∧
        e.noExpire = false ∧ e.expiresOn = now + ttl ∧ e.value = v ∧
        (∀ t : Int, t ≤ now + ttl →
          (FileStore.Get (FileStore.Set s now k v ttl writeOk).2 t k).1 = .ok v) ∧
        (∀ t : Int, now + ttl < t →
          (FileStore.Get (FileStore.Set s now k v ttl writeOk).2 t k).1 =
            .error ("not found: " ++ k))) := by
  have hlk : alookup k (FileStore.Set s now k v ttl writeOk).2.data.pairs =
      some { value := v, noExpire := ttl == 0, expiresOn := now + ttl } := by
    rw [Set_data]
    exact alookup_setPair k _ s.data.pairs
  constructor
  · intro h0
    subst h0
    refine ⟨_, hlk, rfl, rfl, fun t => ?_⟩
    rw [Get_of_lookup _ t k _ hlk,
      if_neg (by simp [fileEntry.expired])]
  · intro hpos
    have hne : (ttl == 0) = false := beq_eq_false_iff_ne.mpr hpos.ne'
    refine ⟨_, hlk, hne, rfl, rfl, fun t ht => ?_, fun t ht => ?_⟩
    · have hexp : fileEntry.expired
          { value := v, noExpire := ttl == 0, expiresOn := now + ttl } t = false := by
        simp [fileEntry.expired, hne]
        omega
      rw [Get_of_lookup _ t k _ hlk, hexp, if_neg (by simp)]
    · have hexp : fileEntry.expired
          { value := v, noExpire := ttl == 0, expiresOn := now + ttl } t = true := by
        simp [fileEntry.expired, hne]
        omega
      rw [Get_of_lookup _ t k _ hlk, if_pos hexp]

/-- Witness for C2: a `ttl = 0` write read back later, and a `ttl = 2`
write with its full expiration behavior. -/
theorem set_ttl_contract_witness :
    (∃ e, alookup "c" (FileStore.Set sampleState 100 "c" "w" 0 true).2.data.pairs =
        some e ∧ e.noExpire = true ∧ e.value = "w" ∧
        ∀ t : Int,
          (FileStore.Get (FileStore.Set sampleState 100 "c" "w" 0 true).2 t "c").1 =
            .ok "w") ∧
    (∃ e, alookup "c" (FileStore.Set sampleState 100 "c" "w" 2 true).2.data.pairs =
        some e ∧ e.noExpire = false ∧ e.expiresOn = 100 + 2 ∧ e.value = "w" ∧
        (∀ t : Int, t ≤ 100 + 2 →
          (FileStore.Get (FileStore.Set sampleState 100 "c" "w" 2 true).2 t "c").1 =
            .ok "w") ∧
        (∀ t : Int, 100 + 2 < t →
          (FileStore.Get (FileStore.Set sampleState 100 "c" "w" 2 true).2 t "c").1 =
            .error ("not found: " ++ "c"))) :=
  ⟨(set_ttl_contract sampleState 100 "c" "w" 0 true).1 rfl,
   (set_ttl_contract sampleState 100 "c" "w" 2 true).2 (by norm_num)⟩

/-- C5: `Delete` on an absent key returns no error, leaves the dataset
unchanged, still rewrites the backing file with the full (unchanged)
dataset, and a subsequent `Get` of the key fails with `NotFound`. -/
theorem delete_absent_noop (s : StoreState) (k : String) (now : Int)
    (h : alookup k s.data.pairs = none) :
    (FileStore.Delete s k true).1 = none ∧
    (FileStore.Delete s k true).2.data = s.data ∧
    (FileStore.Delete s k true).2.file = some (.wellformed s.data.toJson) ∧
    (FileStore.Get (FileStore.Delete s k true).2 now k).1 =
      .error ("not found: " ++ k) := by
  have he : erasePair k s.data.pairs = s.data.pairs :=
    erasePair_of_alookup_none k s.data.pairs h
  have hdata : (FileStore.Delete s k true).2.data = s.data := by
    show ({ s.data with pairs := erasePair k s.data.pairs } : fileData) = s.data
    rw [he]
  have hlk : alookup k (FileStore.Delete s k true).2.data.pairs = none := by
    rw [hdata]
    exact h
  refine ⟨rfl, hdata, ?_, Get_of_lookup_none _ now k hlk⟩
  show some (JContent.wellformed
    (fileData.toJson { s.data with pairs := erasePair k s.data.pairs })) = _
  rw [he]

/-- Witness for C5: deleting the never-set key `b`. -/
theorem delete_absent_noop_witness :
    (FileStore.Delete sampleState "b" true).1 = none ∧
    (FileStore.Delete sampleState "b" true).2.data = sampleState.data ∧
    (FileStore.Delete sampleState "b" true).2.file =
      some (.wellformed sampleState.data.toJson) ∧
    (FileStore.Get (FileStore.Delete sampleState "b" true).2 0 "b").1 =
      .error ("not found: " ++ "b") :=
  delete_absent_noop sampleState "b" 0 rfl

/-- C7: when the sync in `Set` fails, the error propagates but the
in-memory mutation stays: the dataset still maps the key to the new
entry with the bumped sequence counter, while the backing file is
unchanged, leaving memory and disk inconsistent. -/
theorem set_sync_failure_no_rollback (s : StoreState) (now : Int) (k v : String)
    (ttl : Int) :
    ∃ msg, (FileStore.Set s now k v ttl false).1 = some msg ∧
      alookup k (FileStore.Set s now k v ttl false).2.data.pairs =
        some { value := v, noExpire := ttl == 0, expiresOn := now + ttl } ∧
      (FileStore.Set s now k v ttl false).2.data.seq = (s.data.seq + 1) % 2 ^ 64 ∧
      (FileStore.Set s now k v ttl false).2.file = s.file := by
  refine ⟨"could not write to file", rfl, ?_, rfl, rfl⟩
  rw [Set_data]
  exact alookup_setPair k _ s.data.pairs

/-- C8: `Get` never modifies the state — the dataset and the backing
file after the call are exactly what they were before, and an expired
entry in particular is still physically present afterwards. -/
theorem get_pure_frame (s : StoreState) (now : Int) (k : String) :
    (FileStore.Get s now k).2 = s ∧
    (∀ e, alookup k s.data.pairs = some e → e.expired now = true →
      alookup k (FileStore.Get s now k).2.data.pairs = some e) := by
  refine ⟨Get_snd s now k, fun e he _ => ?_⟩
  rw [Get_snd s now k]
  exact he

/-- Witness for C8: reading the expired key `a` leaves the state (and
the expired entry) in place. -/
theorem get_pure_frame_witness :
    (FileStore.Get sampleState 10 "a").2 = sampleState ∧
    alookup "a" (FileStore.Get sampleState 10 "a").2.data.pairs =
      some sampleExpired :=
  ⟨(get_pure_frame sampleState 10 "a").1,
   (get_pure_frame sampleState 10 "a").2 sampleExpired rfl (by decide)⟩

/-- C10: `Set` with a negative duration stores an entry with
`noExpire = false` and an `expiresOn` strictly in the past, so every
`Get` at or after the write time fails with `NotFound`. -/
theorem set_negative_ttl (s : StoreState) (now : Int) (k v : String) (ttl : Int)
    (writeOk : Bool) (h : ttl < 0) :
    ∃ e, alookup k (FileStore.Set s now k v ttl writeOk).2.data.pairs = some e ∧
      e.noExpire = false ∧ e.expiresOn = now + ttl ∧ e.expiresOn < now ∧
      ∀ t : Int, now ≤ t →
        (FileStore.Get (FileStore.Set s now k v ttl writeOk).2 t k).1 =
          .error ("not found: " ++ k) := by
  have hne : (ttl == 0) = false := beq_eq_false_iff_ne.mpr h.ne
  have hlk : alookup k (FileStore.Set s now k v ttl writeOk).2.data.pairs =
      some { value := v, noExpire := ttl == 0, expiresOn := now + ttl } := by
    rw [Set_data]
    exact alookup_setPair k _ s.data.pairs
  refine ⟨_, hlk, hne, rfl, (by omega : now + ttl < now), fun t ht => ?_⟩
  have hexp : fileEntry.expired
      { value := v, noExpire := ttl == 0, expiresOn := now + ttl } t = true := by
    simp [fileEntry.expired, hne]
    omega
  rw [Get_of_lookup _ t k _ hlk, if_pos hexp]

/-- Witness for C10: a write with duration −1 at instant 100 is
immediately unreadable. -/
theorem set_negative_ttl_witness :
    ∃ e, alookup "c" (FileStore.Set sampleState 100 "c" "w" (-1) true).2.data.pairs =
        some e ∧
      e.noExpire = false ∧ e.expiresOn = 100 + (-1) ∧ e.expiresOn < 100 ∧
      ∀ t : Int, (100 : Int) ≤ t →
        (FileStore.Get (FileStore.Set sampleState 100 "c" "w" (-1) true).2 t "c").1 =
          .error ("not found: " ++ "c") :=
  set_negative_ttl sampleState 100 "c" "w" (-1) true (by norm_num)

/-- A concrete two-entry dataset (keys deliberately out of order, so
the serializer's key sorting is exercised). -/
def sampleDataset : fileData :=
  { version := "1", seq := 3,
    pairs := [("b", { value := "y", noExpire := true, expiresOn := 0 }),
              ("a", sampleExpired)] }

/-- C3: load-or-create on an unreadable path returns the fresh empty
dataset (`version = "1"`, `seq = 0`, no pairs) and persists it to the
path immediately; a readable file whose content does not deserialize
fails with the corrupt-store error and the file is left untouched. -/
theorem load_or_create_contract (disk : Option JContent) (writeOk : Bool) :
    (newFileDataFromFile none true disk =
      (.ok newFileData, some (.wellformed newFileData.toJson)) ∧
      newFileData.version = "1" ∧ newFileData.seq = 0 ∧ newFileData.pairs = []) ∧
    (∀ c, unmarshalFileData newFileData c = none →
      newFileDataFromFile (some c) writeOk disk = (.error "invalid content", disk)) := by
  refine ⟨⟨rfl, rfl, rfl, rfl⟩, fun c hc => ?_⟩
  simp [newFileDataFromFile, hc]

/-- Witness for C3: loading from a file holding unparseable bytes
fails and leaves the disk content as it was. -/
theorem load_or_create_contract_witness :
    newFileDataFromFile (some .malformed) false (some .malformed) =
      (.error "invalid content", some .malformed) :=
  (load_or_create_contract (some .malformed) false).2 .malformed rfl

/-- C4: serializing a dataset and deserializing the result (through
the store's own load path, starting from the fresh-dataset defaults)
yields a dataset equal in version, seq, and every entry bound to every
key — an entry being exactly its value, noExpire and expiresOn
fields. -/
theorem serialize_roundtrip (d : fileData) (hn : keysNodup d.pairs)
    (hs : d.seq < 2 ^ 64) :
    ∃ d2, unmarshalFileData newFileData (.wellformed d.toJson) = some d2 ∧
      d2.version = d.version ∧ d2.seq = d.seq ∧
      ∀ k, alookup k d2.pairs = alookup k d.pairs := by
  refine ⟨{ version := d.version, seq := d.seq, pairs := sortPairs d.pairs },
    ?_, rfl, rfl, fun k => ?_⟩
  · show decodeFileData newFileData d.toJson = _
    exact decodeFileData_toJson newFileData d hs
  · exact alookup_sortPairs k d.pairs hn

/-- Witness for C4: the round-trip on a concrete two-entry dataset. -/
theorem serialize_roundtrip_witness :
    ∃ d2, unmarshalFileData newFileData (.wellformed sampleDataset.toJson) = some d2 ∧
      d2.version = sampleDataset.version ∧ d2.seq = sampleDataset.seq ∧
      ∀ k, alookup k d2.pairs = alookup k sampleDataset.pairs :=
  serialize_roundtrip sampleDataset
    (by show (sampleDataset.pairs.map Prod.fst).Nodup; decide)
    (by norm_num [sampleDataset])

/-- C9: the serialized representation is one structure with top-level
fields exactly `version` (string), `seq` (unsigned integer) and
`pairs` (object mapping each stored key to its encoded entry), and
each encoded entry carries exactly a `value` string field, a boolean
never-expires flag, and an `expires_on` timestamp field. -/
theorem backing_file_format (d : fileData) (hn : keysNodup d.pairs) :
    ∃ P, d.toJson = .obj [("version", .str d.version), ("seq", .num d.seq),
        ("pairs", .obj P)] ∧
      (∀ k, alookup k P = (alookup k d.pairs).map fileEntry.toJson) ∧
      ∀ e : fileEntry, e.toJson =
        .obj [("value", .str e.value), ("bool", .boolean e.noExpire),
              ("expires_on", .time e.expiresOn)] := by
  refine ⟨_, rfl, fun k => ?_, fun e => rfl⟩
  rw [alookup_map_value fileEntry.toJson k (sortPairs d.pairs),
    alookup_sortPairs k d.pairs hn]

/-- Witness for C9 on the concrete two-entry dataset. -/
theorem backing_file_format_witness :
    ∃ P, sampleDataset.toJson = .obj [("version", .str sampleDataset.version),
        ("seq", .num sampleDataset.seq), ("pairs", .obj P)] ∧
      (∀ k, alookup k P = (alookup k sampleDataset.pairs).map fileEntry.toJson) ∧
      ∀ e : fileEntry, e.toJson =
        .obj [("value", .str e.value), ("bool", .boolean e.noExpire),
              ("expires_on", .time e.expiresOn)] :=
  backing_file_format sampleDataset
    (by show (sampleDataset.pairs.map Prod.fst).Nodup; decide)

/-- C6 counterexample: `Seq` is a Go `uint64`, so `Seq++` wraps.  A
dataset with `seq = 2^64 − 1` is reachable (it deserializes from a
valid backing file, first conjunct), and one `Set` on it wraps the
counter to `0`, strictly decreasing it — refuting "seq is
non-decreasing across the dataset's lifetime". -/
theorem seq_wraparound_counterexample :
    decodeFileData newFileData
      (.obj [("version", .str "1"), ("seq", .num (2 ^ 64 - 1)), ("pairs", .obj [])]) =
      some { version := "1", seq := 2 ^ 64 - 1, pairs := [] } ∧
    (FileStore.Set
      { data := { version := "1", seq := 2 ^ 64 - 1, pairs := [] }, file := none }
      0 "k" "v" 0 true).2.data.seq <
    ({ data := { version := "1", seq := 2 ^ 64 - 1, pairs := [] },
       file := none } : StoreState).data.seq := by
  constructor
  · rfl
  · show (2 ^ 64 - 1 + 1) % 2 ^ 64 < 2 ^ 64 - 1
    norm_num

/-- C6 (amended): each `Set` steps the `uint64` counter to
`(seq + 1) % 2^64` — exactly one increment per `Set`, whether or not
the sync succeeds — while `Delete` and `Get` never change it; as long
as the counter has not reached `2^64 − 1` the step is a genuine
increment, so `seq` is non-decreasing until a `Set` wraps it. -/
theorem seq_counter_discipline (s : StoreState) (now : Int) (k v : String)
    (ttl : Int) (writeOk wd : Bool) :
    (FileStore.Set s now k v ttl writeOk).2.data.seq = (s.data.seq + 1) % 2 ^ 64 ∧
    (FileStore.Delete s k wd).2.data.seq = s.data.seq ∧
    (FileStore.Get s now k).2.data.seq = s.data.seq ∧
    (s.data.seq + 1 < 2 ^ 64 →
      (FileStore.Set s now k v ttl writeOk).2.data.seq = s.data.seq + 1) := by
  refine ⟨rfl, rfl, ?_, fun hlt => ?_⟩
  · rw [Get_snd]
  · show (s.data.seq + 1) % 2 ^ 64 = s.data.seq + 1
    exact Nat.mod_eq_of_lt hlt

/-- Witness for C6 (amended): a `Set` on the sample store (seq 0)
bumps the counter to exactly 1. -/
theorem seq_counter_discipline_witness :
    (FileStore.Set sampleState 0 "k" "v" 0 true).2.data.seq =
      sampleState.data.seq + 1 :=
  (seq_counter_discipline sampleState 0 "k" "v" 0 true true).2.2.2
    (by norm_num [sampleState])

end Lumen
